import Mathlib

/-!
Verification of the motion-metrics engine (`pose_processor.py`, `app.py`).

The engine converts per-frame pose keypoints into exercise metrics.  We model:
  * keypoint coordinates, frame dimensions and clock readings as rationals
    (the Python floats are only added, subtracted, compared and multiplied at
    these sites, and every increment is an exact binary fraction);
  * the trigonometric angle utility over the reals, with `np.arctan2`
    modelled by `Complex.arg` (same range `(-pi, pi]`, same value `0` at the
    origin);
  * Python `int()` as truncation toward zero;
  * the ambient `time.time()` clock as an explicit per-frame reading.
-/

/-- Python `int()` truncation toward zero, on rationals. -/
def pyIntQ (x : ℚ) : ℤ := if 0 ≤ x then ⌊x⌋ else ⌈x⌉

/-- Python `int()` truncation toward zero, on reals (results of the
trigonometric angle computation). -/
noncomputable def pyIntR (x : ℝ) : ℤ := if 0 ≤ x then ⌊x⌋ else ⌈x⌉

/-- `np.arctan2 y x`: the angle of the point `(x, y)`, in `(-pi, pi]`, with
`arctan2 0 0 = 0` exactly as numpy defines it.  `Complex.arg` has precisely
this behaviour. -/
noncomputable def arctan2 (y x : ℝ) : ℝ := Complex.arg ⟨x, y⟩

/-- `PoseProcessor.calculate_angle`: angle at vertex `b` between rays `b→a`
and `b→c`, via the difference of the two arctangents, folded into `[0,180]`. -/
noncomputable def calculate_angle (a b c : ℝ × ℝ) : ℝ :=
  let radians := arctan2 (c.2 - b.2) (c.1 - b.1) - arctan2 (a.2 - b.2) (a.1 - b.1)
  let angle := |radians * 180 / Real.pi|
  if angle > 180 then 360 - angle else angle

/-- One pose landmark: normalized coordinates as delivered by the model. -/
structure Landmark where
  x : ℚ
  y : ℚ
deriving DecidableEq

/-- A detected frame: the landmark array (indexed as in MediaPipe) together
with the pixel width and height of the source image. -/
structure Frame where
  landmarks : ℕ → Landmark
  w : ℚ
  h : ℚ

/-- Pixel-space position of landmark `i`, as built by the processors:
`[landmarks[i].x * w, landmarks[i].y * h]`, handed to `calculate_angle`. -/
noncomputable def Frame.pt (f : Frame) (i : ℕ) : ℝ × ℝ :=
  ((((f.landmarks i).x * f.w : ℚ) : ℝ), (((f.landmarks i).y * f.h : ℚ) : ℝ))

/-- The per-frame metrics dictionary returned by each processor; one
constructor per exercise-specific field set, plus the empty record `{}`. -/
inductive MetricsRecord where
  | empty : MetricsRecord
  | jj (count : ℤ) (form_score : ℤ) (status : String)
  | pushups (count : ℤ) (arm_angle : ℤ) (body_angle : ℤ) (form_score : ℤ)
  | situps (count : ℤ) (angle : ℤ) (status : String)
  | plank (current_hold : ℤ) (total_time : ℤ) (body_angle : ℤ) (in_position : Prop)
  | vjump (current_height : ℤ) (max_height : ℤ) (jump_count : ℕ)

/-- Counter state of the three repetition exercises:
`{'count': 0, 'direction': 0}`. -/
structure RepState where
  count : ℚ
  direction : ℕ
deriving DecidableEq

/-- Counter state of the plank:
`{'start_time': None, 'elapsed': 0, 'total': 0}`. -/
structure PlankState where
  start_time : Option ℚ
  elapsed : ℚ
  total : ℚ
deriving DecidableEq

/-- Counter state of the vertical jump:
`{'baseline': None, 'max_height': 0, 'jumps': 0}`. -/
structure VJState where
  baseline : Option ℚ
  max_height : ℚ
  jumps : ℕ
deriving DecidableEq

/-- `self.counters`: one state per exercise kind. -/
structure Counters where
  jumping_jacks : RepState
  push_ups : RepState
  sit_ups : RepState
  plank : PlankState
  vertical_jump : VJState
deriving DecidableEq

def repZero : RepState := ⟨0, 0⟩
def plankZero : PlankState := ⟨none, 0, 0⟩
def vjZero : VJState := ⟨none, 0, 0⟩

/-- The freshly constructed `PoseProcessor.counters` dictionary. -/
def countersInit : Counters := ⟨repZero, repZero, repZero, plankZero, vjZero⟩

/-- Jumping jacks `arms_up`: both wrists' y below the corresponding
shoulder's y (indices 15,16 wrists; 11,12 shoulders). -/
def arms_up (f : Frame) : Prop :=
  (f.landmarks 15).y < (f.landmarks 11).y ∧ (f.landmarks 16).y < (f.landmarks 12).y

instance (f : Frame) : Decidable (arms_up f) :=
  inferInstanceAs (Decidable (_ < _ ∧ _ < _))

/-- Jumping jacks `legs_spread`: pixel hip separation above 100
(indices 23,24 hips). -/
def legs_spread (f : Frame) : Prop :=
  |(f.landmarks 24).x - (f.landmarks 23).x| * f.w > 100

instance (f : Frame) : Decidable (legs_spread f) :=
  inferInstanceAs (Decidable (_ > _))

/-- The full jumping-jacks "Open" predicate `arms_up and legs_spread`. -/
def jjOpen (f : Frame) : Prop := arms_up f ∧ legs_spread f

instance (f : Frame) : Decidable (jjOpen f) :=
  inferInstanceAs (Decidable (arms_up f ∧ legs_spread f))

/-- `PoseProcessor.process_jumping_jacks`. -/
def process_jumping_jacks (f : Frame) (s : RepState) : RepState × MetricsRecord :=
  let s1 :=
    if jjOpen f then
      if s.direction = 0 then { count := s.count + 1/2, direction := 1 } else s
    else
      if s.direction = 1 then { count := s.count + 1/2, direction := 0 } else s
  (s1, .jj (pyIntQ s1.count) (if jjOpen f then 95 else 70)
      (if arms_up f then "Up" else "Down"))

open Classical in
/-- `PoseProcessor.process_push_ups` (landmarks 11 shoulder, 13 elbow,
15 wrist, 23 hip, 25 knee). -/
noncomputable def process_push_ups (f : Frame) (s : RepState) : RepState × MetricsRecord :=
  let arm_angle := calculate_angle (f.pt 11) (f.pt 13) (f.pt 15)
  let body_angle := calculate_angle (f.pt 11) (f.pt 23) (f.pt 25)
  let s1 :=
    if arm_angle < 90 then
      if s.direction = 0 then { count := s.count + 1/2, direction := 1 } else s
    else if arm_angle > 160 then
      if s.direction = 1 then { count := s.count + 1/2, direction := 0 } else s
    else s
  (s1, .pushups (pyIntQ s1.count) (pyIntR arm_angle) (pyIntR body_angle)
      (if 160 < body_angle ∧ body_angle < 190 then 100 else 70))

open Classical in
/-- `PoseProcessor.process_sit_ups` (landmarks 11 shoulder, 23 hip, 25 knee). -/
noncomputable def process_sit_ups (f : Frame) (s : RepState) : RepState × MetricsRecord :=
  let angle := calculate_angle (f.pt 11) (f.pt 23) (f.pt 25)
  let s1 :=
    if angle < 90 then
      if s.direction = 0 then { count := s.count + 1/2, direction := 1 } else s
    else if angle > 150 then
      if s.direction = 1 then { count := s.count + 1/2, direction := 0 } else s
    else s
  (s1, .situps (pyIntQ s1.count) (pyIntR angle)
      (if angle < 90 then "Up" else "Down"))

/-- Plank body-alignment angle (landmarks 11 shoulder, 23 hip, 27 ankle). -/
noncomputable def body_angle_plank (f : Frame) : ℝ :=
  calculate_angle (f.pt 11) (f.pt 23) (f.pt 27)

/-- `in_plank`: body angle strictly between 160 and 190 degrees. -/
def InPlank (f : Frame) : Prop :=
  160 < body_angle_plank f ∧ body_angle_plank f < 190

open Classical in
/-- `PoseProcessor.process_plank`.  The ambient `time.time()` readings of the
frame are modelled by the single per-frame clock value `now`. -/
noncomputable def process_plank (f : Frame) (now : ℚ) (s : PlankState) :
    PlankState × MetricsRecord :=
  let s1 :=
    if InPlank f then
      let start := s.start_time.getD now
      { start_time := some start, elapsed := now - start, total := s.total }
    else
      if s.start_time.isSome then
        { start_time := none, elapsed := 0, total := s.total + s.elapsed }
      else s
  let current_hold : ℚ := if InPlank f then s1.elapsed else 0
  (s1, .plank (pyIntQ current_hold) (pyIntQ s1.total)
      (pyIntR (body_angle_plank f)) (InPlank f))

/-- Vertical-jump hip height `(landmarks[23].y + landmarks[24].y) / 2 * h`. -/
def hip_y (f : Frame) : ℚ :=
  ((f.landmarks 23).y + (f.landmarks 24).y) / 2 * f.h

/-- `PoseProcessor.process_vertical_jump`. -/
def process_vertical_jump (f : Frame) (s : VJState) : VJState × MetricsRecord :=
  let hy := hip_y f
  let baseline := s.baseline.getD hy
  let jump_height := baseline - hy
  let s1 : VJState := { baseline := some baseline, max_height := s.max_height, jumps := s.jumps }
  let s2 :=
    if jump_height > 20 then
      if s1.max_height < jump_height then { s1 with max_height := jump_height } else s1
    else if jump_height < 10 ∧ s1.max_height > 20 then
      { s1 with jumps := s1.jumps + 1, max_height := 0 }
    else s1
  (s2, .vjump (pyIntQ jump_height) (pyIntQ s2.max_height) s2.jumps)

/-- `PoseProcessor.process_frame`: a `none` detection models the
"no pose landmarks" early exit; otherwise dispatch on the exercise string,
with unmatched strings falling through to the empty record. -/
noncomputable def process_frame (now : ℚ) (det : Option Frame) (exercise : String)
    (cs : Counters) : Counters × MetricsRecord :=
  match det with
  | none => (cs, .empty)
  | some f =>
    if exercise = "jumping_jacks" then
      let r := process_jumping_jacks f cs.jumping_jacks
      ({ cs with jumping_jacks := r.1 }, r.2)
    else if exercise = "push_ups" then
      let r := process_push_ups f cs.push_ups
      ({ cs with push_ups := r.1 }, r.2)
    else if exercise = "sit_ups" then
      let r := process_sit_ups f cs.sit_ups
      ({ cs with sit_ups := r.1 }, r.2)
    else if exercise = "plank" then
      let r := process_plank f now cs.plank
      ({ cs with plank := r.1 }, r.2)
    else if exercise = "vertical_jump" then
      let r := process_vertical_jump f cs.vertical_jump
      ({ cs with vertical_jump := r.1 }, r.2)
    else (cs, .empty)

/-- `PoseProcessor.reset_counter`: replace the named exercise's state with a
fresh zero-valued one; any other string leaves everything unchanged. -/
def reset_counter (exercise : String) (cs : Counters) : Counters :=
  if exercise = "jumping_jacks" then { cs with jumping_jacks := ⟨0, 0⟩ }
  else if exercise = "push_ups" then { cs with push_ups := ⟨0, 0⟩ }
  else if exercise = "sit_ups" then { cs with sit_ups := ⟨0, 0⟩ }
  else if exercise = "plank" then { cs with plank := ⟨none, 0, 0⟩ }
  else if exercise = "vertical_jump" then { cs with vertical_jump := ⟨none, 0, 0⟩ }
  else cs

/-- The JSON reply of the `/api/set_exercise` route. -/
structure SetResponse where
  status : String
  exercise : Option String
deriving DecidableEq

/-- The JSON reply of the `/api/get_metrics` route (timestamps, pure
presentation, are not modelled). -/
structure MetricsResponse where
  exercise : Option String
  metrics : MetricsRecord

/-- The global mutable state of `app.py`: the selected exercise string, the
`PoseProcessor` counters, and `session_data['exercises']` (the most recently
stored metrics record per exercise kind). -/
structure AppState where
  current_exercise : Option String
  counters : Counters
  session_exercises : String → Option MetricsRecord

/-- The app's state right after startup. -/
def appInit : AppState :=
  { current_exercise := none, counters := countersInit, session_exercises := fun _ => none }

/-- Python truthiness of the `current_exercise` global (`None` and the empty
string are falsy). -/
def truthy : Option String → Bool
  | none => false
  | some s => !(s == "")

/-- `set_exercise` route: store `data.get('exercise')` into
`current_exercise`, then call `reset_counter` on it (a `None` value matches
no branch of `reset_counter`), and reply success unconditionally. -/
def set_exercise (ex : Option String) (st : AppState) : AppState × SetResponse :=
  let counters1 :=
    match ex with
    | none => st.counters
    | some e => reset_counter e st.counters
  ({ st with current_exercise := ex, counters := counters1 },
   { status := "success", exercise := ex })

/-- One iteration of the `generate_frames` loop: when an exercise is selected
(truthy), process the frame and overwrite that exercise's entry in
`session_data['exercises']` with the fresh metrics record. -/
noncomputable def app_process_frame (now : ℚ) (det : Option Frame) (st : AppState) : AppState :=
  match st.current_exercise with
  | none => st
  | some ex =>
    if ex = "" then st
    else
      let r := process_frame now det ex st.counters
      { st with counters := r.1,
                session_exercises := fun k => if k = ex then some r.2 else st.session_exercises k }

/-- `get_metrics` route: return the stored metrics record of the current
exercise when one exists, the empty reply otherwise. -/
def get_metrics (st : AppState) : MetricsResponse :=
  match st.current_exercise with
  | none => { exercise := none, metrics := .empty }
  | some ex =>
    if ex = "" then { exercise := none, metrics := .empty }
    else
      match st.session_exercises ex with
      | some m => { exercise := some ex, metrics := m }
      | none => { exercise := none, metrics := .empty }

/-- `reset` route: reset the current exercise's counter when one is selected;
the stored session metrics are untouched. -/
def reset_route (st : AppState) : AppState :=
  match st.current_exercise with
  | none => st
  | some ex => if ex = "" then st else { st with counters := reset_counter ex st.counters }

/-- The five recognized exercise kind strings. -/
def exerciseKinds : List String :=
  ["jumping_jacks", "push_ups", "sit_ups", "plank", "vertical_jump"]

/-- Fold a frame list through the jumping-jacks processor, keeping the last
emitted metrics record (`.empty` when no frame was processed). -/
def run_jj (fs : List Frame) (s : RepState) : RepState × MetricsRecord :=
  fs.foldl (fun a f => process_jumping_jacks f a.1) (s, .empty)

/-- State part of folding frames through the jumping-jacks processor. -/
def run_jj_state (fs : List Frame) (s : RepState) : RepState :=
  fs.foldl (fun a f => (process_jumping_jacks f a).1) s

/-- State part of folding frames through the vertical-jump processor. -/
def run_vj_state (fs : List Frame) (s : VJState) : VJState :=
  fs.foldl (fun a f => (process_vertical_jump f a).1) s

/-- State part of folding (frame, clock) pairs through the plank processor. -/
noncomputable def run_plank_state (ps : List (Frame × ℚ)) (s : PlankState) : PlankState :=
  ps.foldl (fun a p => (process_plank p.1 p.2 a).1) s

/-- One full jumping-jacks cycle: a nonempty block of frames satisfying the
Open predicate, then a nonempty block of frames violating it. -/
structure JJCycle where
  o : Frame
  os : List Frame
  c : Frame
  cs : List Frame

/-- The frames of one cycle, in order. -/
def JJCycle.frames (cy : JJCycle) : List Frame :=
  (cy.o :: cy.os) ++ (cy.c :: cy.cs)

/-- The cycle really drives the Open predicate up then down. -/
def JJCycle.Drives (cy : JJCycle) : Prop :=
  (∀ f ∈ cy.o :: cy.os, jjOpen f) ∧ (∀ f ∈ cy.c :: cy.cs, ¬ jjOpen f)

instance (cy : JJCycle) : Decidable cy.Drives :=
  inferInstanceAs (Decidable (_ ∧ _))

/-- Concatenate the frames of a list of cycles. -/
def flattenJJ : List JJCycle → List Frame
  | [] => []
  | cy :: rest => cy.frames ++ flattenJJ rest

/-- Last element of `x :: l`. -/
def lastD {α : Type} (x : α) : List α → α
  | [] => x
  | y :: ys => lastD y ys

/-- One plank in-position interval followed by its exit: a nonempty block of
in-position (frame, clock) samples, then a nonempty block of out-of-position
samples. -/
structure PlankCycle where
  i0 : Frame × ℚ
  ins : List (Frame × ℚ)
  o0 : Frame × ℚ
  outs : List (Frame × ℚ)

/-- The samples of one plank interval (entry to past-exit), in order. -/
def PlankCycle.frames (cy : PlankCycle) : List (Frame × ℚ) :=
  (cy.i0 :: cy.ins) ++ (cy.o0 :: cy.outs)

/-- The samples really hold the position throughout the in-block and are out
of position throughout the out-block. -/
def PlankCycle.Drives (cy : PlankCycle) : Prop :=
  (∀ p ∈ cy.i0 :: cy.ins, InPlank p.1) ∧ (∀ p ∈ cy.o0 :: cy.outs, ¬ InPlank p.1)

/-- Duration of the interval: last in-position clock reading minus the
reading at entry. -/
def PlankCycle.duration (cy : PlankCycle) : ℚ :=
  (lastD cy.i0 cy.ins).2 - cy.i0.2

/-- Concatenate the samples of a list of plank intervals. -/
def flattenPlank : List PlankCycle → List (Frame × ℚ)
  | [] => []
  | cy :: rest => cy.frames ++ flattenPlank rest

/-- Sum of the interval durations. -/
def durations (L : List PlankCycle) : ℚ :=
  (L.map PlankCycle.duration).sum

/-- A frame in the jumping-jacks Open pose: wrists (15,16) above the
shoulders (11,12), hips (23,24) separated by 200 pixels. -/
def fJJopen : Frame :=
  { landmarks := fun i =>
      if i = 11 ∨ i = 12 then ⟨0, 1⟩
      else if i = 24 then ⟨2, 0⟩
      else ⟨0, 0⟩,
    w := 100, h := 100 }

/-- A frame in the jumping-jacks Closed pose: every landmark at the origin. -/
def fJJclosed : Frame :=
  { landmarks := fun _ => ⟨0, 0⟩, w := 100, h := 100 }

/-- Two full jumping-jacks cycles, sampled with different frame counts. -/
def jjCyclesExample : List JJCycle :=
  [⟨fJJopen, [fJJopen], fJJclosed, []⟩, ⟨fJJopen, [], fJJclosed, [fJJclosed]⟩]

/-- A straight-body frame: shoulder (0,0), hip (1,0), ankle (2,0) in pixel
space, so the plank body angle is 180 degrees. -/
def fPlankIn : Frame :=
  { landmarks := fun i => if i = 23 then ⟨1, 0⟩ else if i = 27 then ⟨2, 0⟩ else ⟨0, 0⟩,
    w := 1, h := 1 }

/-- A bent-body frame: shoulder (0,0), hip (1,0), ankle (1,1), so the plank
body angle is 90 degrees. -/
def fPlankOut : Frame :=
  { landmarks := fun i => if i = 23 then ⟨1, 0⟩ else if i = 27 then ⟨1, 1⟩ else ⟨0, 0⟩,
    w := 1, h := 1 }

/-- One plank interval held from clock 0 to clock 5 (sampled twice), exited
at clock 7. -/
def plankCycleExample : PlankCycle :=
  ⟨(fPlankIn, 0), [(fPlankIn, 5)], (fPlankOut, 7), []⟩

/-- A vertical-jump frame whose hip height is exactly `v` pixels. -/
def vjFrame (v : ℚ) : Frame :=
  { landmarks := fun _ => ⟨0, v⟩, w := 1, h := 1 }

/-- An app state in which jumping jacks already accumulated one repetition. -/
def c3State : AppState :=
  { current_exercise := some "jumping_jacks",
    counters := { countersInit with jumping_jacks := ⟨1, 0⟩ },
    session_exercises := fun _ => none }

/-- A concrete app history: select jumping jacks, process one Open and one
Closed frame (one full repetition, stored record count 1). -/
noncomputable def c4Pre : AppState :=
  app_process_frame 1 (some fJJclosed)
    (app_process_frame 0 (some fJJopen)
      ((set_exercise (some "jumping_jacks") appInit).1))

/-- The same history followed by the reset route. -/
noncomputable def c4Post : AppState := reset_route c4Pre

/-- Claim C1: a frame in which the pose model detects no keypoints is a
state no-op for every exercise kind and every prior counter state: `process`
returns the unchanged counters together with the empty MetricsRecord. -/
theorem no_detection_is_noop (now : ℚ) (exercise : String) (cs : Counters) :
    process_frame now none exercise cs = (cs, MetricsRecord.empty) := rfl

/-- Claim C6: one processing step never decreases the repetition count of
jumping jacks, push-ups or sit-ups, nor the completed-jump count of the
vertical jump. -/
theorem counters_monotone (f : Frame) :
    (∀ s : RepState, s.count ≤ ((process_jumping_jacks f s).1).count) ∧
    (∀ s : RepState, s.count ≤ ((process_push_ups f s).1).count) ∧
    (∀ s : RepState, s.count ≤ ((process_sit_ups f s).1).count) ∧
    (∀ v : VJState, v.jumps ≤ ((process_vertical_jump f v).1).jumps) := by
  refine ⟨fun s => ?_, fun s => ?_, fun s => ?_, fun v => ?_⟩
  · simp only [process_jumping_jacks]
    split_ifs <;> simp
  · simp only [process_push_ups]
    split_ifs <;> simp
  · simp only [process_sit_ups]
    split_ifs <;> simp
  · simp only [process_vertical_jump]
    split_ifs <;> simp

/-- Claim C8: from a fresh vertical-jump state, a hip trace that establishes
the baseline, rises 30 pixels above it, and returns to it, completes exactly
one jump and resets the running peak to 0. -/
theorem vertical_jump_counts_one (B : ℚ) (f1 f2 f3 : Frame)
    (h1 : hip_y f1 = B) (h2 : hip_y f2 = B - 30) (h3 : hip_y f3 = B) :
    run_vj_state [f1, f2, f3] vjZero = ⟨some B, 0, 1⟩ := by
  simp only [run_vj_state, List.foldl, process_vertical_jump, vjZero, h1, h2, h3,
    Option.getD_none, Option.getD_some, sub_self, sub_sub_cancel]
  norm_num

/-- Claim C8 witness: a concrete trace with baseline 500. -/
theorem vertical_jump_counts_one_witness :
    hip_y (vjFrame 500) = 500 ∧ hip_y (vjFrame 470) = 500 - 30 ∧
    run_vj_state [vjFrame 500, vjFrame 470, vjFrame 500] vjZero = ⟨some 500, 0, 1⟩ :=
  ⟨by norm_num [hip_y, vjFrame], by norm_num [hip_y, vjFrame],
   vertical_jump_counts_one 500 (vjFrame 500) (vjFrame 470) (vjFrame 500)
     (by norm_num [hip_y, vjFrame]) (by norm_num [hip_y, vjFrame])
     (by norm_num [hip_y, vjFrame])⟩

/-- Claim C3 counterexample: with one accumulated jumping-jacks repetition,
selecting jumping jacks and then processing a frame does not preserve the
counter — `set_exercise` resets it to zero. -/
theorem select_preserves_counters_cex :
    (app_process_frame 0 none
        ((set_exercise (some "jumping_jacks") c3State).1)).counters.jumping_jacks
      ≠ c3State.counters.jumping_jacks := by
  decide

/-- Claim C3 (amended): selecting an exercise resets exactly the selected
exercise's state to its zero value and preserves the other four exercises'
states (selection implicitly resets the selected exercise). -/
theorem select_exercise_resets_selected (st : AppState) :
    ((set_exercise (some "jumping_jacks") st).1).counters
        = { st.counters with jumping_jacks := ⟨0, 0⟩ } ∧
    ((set_exercise (some "push_ups") st).1).counters
        = { st.counters with push_ups := ⟨0, 0⟩ } ∧
    ((set_exercise (some "sit_ups") st).1).counters
        = { st.counters with sit_ups := ⟨0, 0⟩ } ∧
    ((set_exercise (some "plank") st).1).counters
        = { st.counters with plank := ⟨none, 0, 0⟩ } ∧
    ((set_exercise (some "vertical_jump") st).1).counters
        = { st.counters with vertical_jump := ⟨none, 0, 0⟩ } := by
  refine ⟨?_, ?_, ?_, ?_, ?_⟩ <;> simp [set_exercise, reset_counter]

/-- Claim C4 counterexample: after one full jumping-jacks repetition and a
reset, `get_metrics` still reports the stale pre-reset record (count 1)
although the counter state was zeroed. -/
theorem reset_metrics_stale_cex :
    (get_metrics c4Post).metrics = MetricsRecord.jj 1 70 "Down" ∧
    c4Post.counters.jumping_jacks = ⟨0, 0⟩ := by
  have hopen : jjOpen fJJopen := by
    constructor
    · constructor <;> norm_num [fJJopen]
    · norm_num [legs_spread, fJJopen]
  have harms : ¬ arms_up fJJclosed := by norm_num [arms_up, fJJclosed]
  have hclosed : ¬ jjOpen fJJclosed := fun h => harms h.1
  have hne : ("jumping_jacks" : String) ≠ "" := by decide
  constructor
  · norm_num [c4Post, c4Pre, reset_route, app_process_frame, set_exercise, appInit,
      get_metrics, process_frame, process_jumping_jacks, reset_counter, countersInit,
      repZero, hopen, hclosed, harms, hne, pyIntQ]
  · norm_num [c4Post, c4Pre, reset_route, app_process_frame, set_exercise, appInit,
      process_frame, process_jumping_jacks, reset_counter, countersInit,
      repZero, hopen, hclosed, harms, hne]

/-- Claim C4 (amended): the reset route zeroes the selected exercise's
counters but leaves the stored session records untouched, so the metrics
read immediately after a reset is identical to the one before it (stale);
zero-valued metrics only appear with the next processed frame. -/
theorem reset_leaves_metrics_read_unchanged (st : AppState) :
    get_metrics (reset_route st) = get_metrics st ∧
    (∀ e, st.current_exercise = some e → ¬ e = "" →
      (reset_route st).counters = reset_counter e st.counters) := by
  constructor
  · cases hst : st.current_exercise with
    | none => simp [reset_route, hst]
    | some ex =>
      by_cases he : ex = "" <;> simp [reset_route, get_metrics, hst, he]
  · intro e he hne
    simp [reset_route, he, hne]

/-- Claim C4 witness: the amended statement at the concrete post-history
state. -/
theorem reset_leaves_metrics_read_unchanged_witness :
    get_metrics (reset_route c3State) = get_metrics c3State ∧
    (c3State.current_exercise = some "jumping_jacks" ∧ ¬ "jumping_jacks" = "" ∧
      (reset_route c3State).counters = reset_counter "jumping_jacks" c3State.counters) :=
  ⟨(reset_leaves_metrics_read_unchanged c3State).1,
   rfl, by decide,
   (reset_leaves_metrics_read_unchanged c3State).2 "jumping_jacks" rfl (by decide)⟩

/-- Claim C5 counterexample: a selection with the unrecognized kind "zumba"
is not rejected: the route replies success and the unknown kind becomes the
current exercise. -/
theorem unknown_kind_accepted_cex :
    (set_exercise (some "zumba") appInit).2.status = "success" ∧
    (set_exercise (some "zumba") appInit).1.current_exercise = some "zumba" ∧
    (set_exercise (some "zumba") appInit).1.counters = appInit.counters := by
  refine ⟨rfl, rfl, by decide⟩

/-- Claim C5 (amended): a selection with a kind outside the fixed set is
silently accepted — the reply is success, the unknown kind becomes current —
while every exercise's counters are left unchanged (the reset matched no
branch); no error is reported to the caller. -/
theorem unknown_kind_silently_accepted (st : AppState) (k : String)
    (hk : k ∉ exerciseKinds) :
    (set_exercise (some k) st).2 = ⟨"success", some k⟩ ∧
    (set_exercise (some k) st).1.current_exercise = some k ∧
    (set_exercise (some k) st).1.counters = st.counters := by
  simp only [exerciseKinds, List.mem_cons, List.not_mem_nil, or_false, not_or] at hk
  obtain ⟨h1, h2, h3, h4, h5⟩ := hk
  refine ⟨rfl, rfl, ?_⟩
  simp [set_exercise, reset_counter, h1, h2, h3, h4, h5]

/-- Claim C5 witness: the amended statement at the concrete kind "zumba". -/
theorem unknown_kind_silently_accepted_witness :
    "zumba" ∉ exerciseKinds ∧
    ((set_exercise (some "zumba") c3State).2 = ⟨"success", some "zumba"⟩ ∧
     (set_exercise (some "zumba") c3State).1.current_exercise = some "zumba" ∧
     (set_exercise (some "zumba") c3State).1.counters = c3State.counters) :=
  ⟨by decide, unknown_kind_silently_accepted c3State "zumba" (by decide)⟩

lemma jj_run_fst (fs : List Frame) (s : RepState) (m : MetricsRecord) :
    (fs.foldl (fun a f => process_jumping_jacks f a.1) (s, m)).1 = run_jj_state fs s := by
  induction fs generalizing s m with
  | nil => rfl
  | cons f fs ih => simpa [run_jj_state, List.foldl] using ih _ _

lemma run_jj_state_append (xs ys : List Frame) (s : RepState) :
    run_jj_state (xs ++ ys) s = run_jj_state ys (run_jj_state xs s) := by
  simp [run_jj_state, List.foldl_append]

lemma run_jj_concat_snd (xs : List Frame) (f : Frame) (s : RepState) :
    (run_jj (xs ++ [f]) s).2 = (process_jumping_jacks f (run_jj_state xs s)).2 := by
  simp only [run_jj, List.foldl_append, List.foldl]
  rw [jj_run_fst]

lemma jj_step_entry (f : Frame) (s : RepState) (hf : jjOpen f) (hd : s.direction = 0) :
    (process_jumping_jacks f s).1 = ⟨s.count + 1/2, 1⟩ := by
  simp [process_jumping_jacks, hf, hd]

lemma jj_step_open_noop (f : Frame) (s : RepState) (hf : jjOpen f) (hd : s.direction = 1) :
    (process_jumping_jacks f s).1 = s := by
  simp [process_jumping_jacks, hf, hd]

lemma jj_step_exit (f : Frame) (s : RepState) (hf : ¬ jjOpen f) (hd : s.direction = 1) :
    (process_jumping_jacks f s).1 = ⟨s.count + 1/2, 0⟩ := by
  simp [process_jumping_jacks, hf, hd]

lemma jj_step_closed_noop (f : Frame) (s : RepState) (hf : ¬ jjOpen f) (hd : s.direction = 0) :
    (process_jumping_jacks f s).1 = s := by
  simp [process_jumping_jacks, hf, hd]

lemma run_jj_state_open_noop (os : List Frame) (h : ∀ f ∈ os, jjOpen f)
    (s : RepState) (hd : s.direction = 1) : run_jj_state os s = s := by
  induction os with
  | nil => rfl
  | cons f fs ih =>
    have h1 : (process_jumping_jacks f s).1 = s :=
      jj_step_open_noop f s (h f (List.mem_cons_self f fs)) hd
    simp only [run_jj_state, List.foldl, h1]
    exact ih (fun g hg => h g (List.mem_cons_of_mem f hg))

lemma run_jj_state_closed_noop (cs : List Frame) (h : ∀ f ∈ cs, ¬ jjOpen f)
    (s : RepState) (hd : s.direction = 0) : run_jj_state cs s = s := by
  induction cs with
  | nil => rfl
  | cons f fs ih =>
    have h1 : (process_jumping_jacks f s).1 = s :=
      jj_step_closed_noop f s (h f (List.mem_cons_self f fs)) hd
    simp only [run_jj_state, List.foldl, h1]
    exact ih (fun g hg => h g (List.mem_cons_of_mem f hg))

lemma run_jj_state_cycle (cy : JJCycle) (h : cy.Drives) (s : RepState)
    (hd : s.direction = 0) : run_jj_state cy.frames s = ⟨s.count + 1, 0⟩ := by
  obtain ⟨hopen, hclosed⟩ := h
  have hstep1 : (process_jumping_jacks cy.o s).1 = ⟨s.count + 1/2, 1⟩ :=
    jj_step_entry cy.o s (hopen cy.o (List.mem_cons_self _ _)) hd
  have hos : run_jj_state cy.os ⟨s.count + 1/2, 1⟩ = ⟨s.count + 1/2, 1⟩ :=
    run_jj_state_open_noop cy.os (fun g hg => hopen g (List.mem_cons_of_mem _ hg)) _ rfl
  have hstep2 : (process_jumping_jacks cy.c (⟨s.count + 1/2, 1⟩ : RepState)).1
      = ⟨s.count + 1/2 + 1/2, 0⟩ :=
    jj_step_exit cy.c _ (hclosed cy.c (List.mem_cons_self _ _)) rfl
  have hcs : run_jj_state cy.cs ⟨s.count + 1/2 + 1/2, 0⟩ = ⟨s.count + 1/2 + 1/2, 0⟩ :=
    run_jj_state_closed_noop cy.cs (fun g hg => hclosed g (List.mem_cons_of_mem _ hg)) _ rfl
  have : run_jj_state cy.frames s = ⟨s.count + 1/2 + 1/2, 0⟩ := by
    simp only [JJCycle.frames, run_jj_state_append]
    simp only [run_jj_state, List.foldl, hstep1]
    have hos' := hos
    simp only [run_jj_state] at hos'
    rw [hos', hstep2]
    simpa [run_jj_state] using hcs
  rw [this]
  have : s.count + 1/2 + 1/2 = s.count + 1 := by ring
  rw [this]

lemma run_jj_state_cycles (L : List JJCycle) (h : ∀ cy ∈ L, cy.Drives)
    (s : RepState) (hd : s.direction = 0) :
    run_jj_state (flattenJJ L) s = ⟨s.count + L.length, 0⟩ := by
  induction L generalizing s with
  | nil =>
    cases s
    simp only [flattenJJ, run_jj_state, List.foldl, List.length_nil, Nat.cast_zero, add_zero]
    simp_all
  | cons cy rest ih =>
    have h1 : run_jj_state cy.frames s = ⟨s.count + 1, 0⟩ :=
      run_jj_state_cycle cy (h cy (List.mem_cons_self _ _)) s hd
    have h2 := ih (fun d hd2 => h d (List.mem_cons_of_mem _ hd2)) (⟨s.count + 1, 0⟩ : RepState) rfl
    simp only [flattenJJ, run_jj_state_append, h1, h2, List.length_cons]
    congr 1
    push_cast
    ring

lemma run_jj_last_record (fs : List Frame) (hne : fs ≠ []) (s : RepState) :
    ∃ q r, (run_jj fs s).2 = .jj (pyIntQ (run_jj_state fs s).count) q r := by
  rcases List.eq_nil_or_concat fs with h | ⟨xs, f, rfl⟩
  · exact absurd h hne
  refine ⟨if jjOpen f then 95 else 70, if arms_up f then "Up" else "Down", ?_⟩
  rw [List.concat_eq_append, run_jj_concat_snd, run_jj_state_append]
  rfl

/-- Claim C2: starting from the zero state, any frame sequence made of an
optional block of Closed frames followed by N full Open-then-Closed cycles —
each phase sampled by arbitrarily many frames — makes the jumping-jacks
processor report exactly N repetitions in its final MetricsRecord. -/
theorem jumping_jacks_cycle_count (pre : List Frame) (L : List JJCycle)
    (hpre : ∀ f ∈ pre, ¬ jjOpen f) (hL : ∀ cy ∈ L, cy.Drives)
    (hne : pre ++ flattenJJ L ≠ []) :
    ∃ q r, (run_jj (pre ++ flattenJJ L) repZero).2 = .jj (L.length : ℤ) q r := by
  obtain ⟨q, r, hrec⟩ := run_jj_last_record _ hne repZero
  refine ⟨q, r, ?_⟩
  rw [hrec]
  have h1 : run_jj_state pre repZero = repZero :=
    run_jj_state_closed_noop pre hpre repZero rfl
  have h2 : run_jj_state (pre ++ flattenJJ L) repZero = ⟨repZero.count + L.length, 0⟩ := by
    rw [run_jj_state_append, h1]
    exact run_jj_state_cycles L hL repZero rfl
  rw [h2]
  congr 1
  show pyIntQ ((0 : ℚ) + L.length) = L.length
  simp [pyIntQ]

/-- Claim C2 witness: two cycles with unequal phase sampling give count 2. -/
theorem jumping_jacks_cycle_count_witness :
    (∀ cy ∈ jjCyclesExample, cy.Drives) ∧
    (∃ q r, (run_jj ([] ++ flattenJJ jjCyclesExample) repZero).2 = .jj 2 q r) := by
  have hopen : jjOpen fJJopen := by
    constructor
    · constructor <;> norm_num [fJJopen]
    · norm_num [legs_spread, fJJopen]
  have hclosed : ¬ jjOpen fJJclosed := fun h => by
    have := h.1
    norm_num [arms_up, fJJclosed] at this
  have hd : ∀ cy ∈ jjCyclesExample, cy.Drives := by
    simp [jjCyclesExample, JJCycle.Drives, List.forall_mem_cons, hopen, hclosed]
  have hne : ([] : List Frame) ++ flattenJJ jjCyclesExample ≠ [] := by
    simp [jjCyclesExample, flattenJJ, JJCycle.frames]
  exact ⟨hd, jumping_jacks_cycle_count [] jjCyclesExample (by simp) hd hne⟩

lemma plank_step_in (f : Frame) (t : ℚ) (s : PlankState) (hf : InPlank f) :
    (process_plank f t s).1 = ⟨some (s.start_time.getD t), t - s.start_time.getD t, s.total⟩ := by
  simp [process_plank, hf]

lemma plank_step_out_some (f : Frame) (t : ℚ) (s : PlankState) (t0 : ℚ)
    (hf : ¬ InPlank f) (hs : s.start_time = some t0) :
    (process_plank f t s).1 = ⟨none, 0, s.total + s.elapsed⟩ := by
  simp [process_plank, hf, hs]

lemma plank_step_out_none (f : Frame) (t : ℚ) (s : PlankState)
    (hf : ¬ InPlank f) (hs : s.start_time = none) :
    (process_plank f t s).1 = s := by
  simp [process_plank, hf, hs]

lemma run_plank_state_append (xs ys : List (Frame × ℚ)) (s : PlankState) :
    run_plank_state (xs ++ ys) s = run_plank_state ys (run_plank_state xs s) := by
  simp [run_plank_state, List.foldl_append]

lemma run_plank_in_aux (l : List (Frame × ℚ)) (hl : ∀ p ∈ l, InPlank p.1) :
    ∀ (t0 T : ℚ) (q : Frame × ℚ),
      run_plank_state l ⟨some t0, q.2 - t0, T⟩ = ⟨some t0, (lastD q l).2 - t0, T⟩ := by
  induction l with
  | nil => intro t0 T q; rfl
  | cons p ps ih =>
    intro t0 T q
    have hstep : (process_plank p.1 p.2 (⟨some t0, q.2 - t0, T⟩ : PlankState)).1
        = ⟨some t0, p.2 - t0, T⟩ := by
      rw [plank_step_in p.1 p.2 _ (hl p (List.mem_cons_self _ _))]
      simp
    have htail := ih (fun r hr => hl r (List.mem_cons_of_mem _ hr)) t0 T p
    simp only [run_plank_state, List.foldl, hstep, lastD]
    simpa [run_plank_state] using htail

lemma run_plank_in_entry (p0 : Frame × ℚ) (ins : List (Frame × ℚ))
    (h : ∀ p ∈ p0 :: ins, InPlank p.1) (e T : ℚ) :
    run_plank_state (p0 :: ins) ⟨none, e, T⟩ = ⟨some p0.2, (lastD p0 ins).2 - p0.2, T⟩ := by
  have hstep : (process_plank p0.1 p0.2 (⟨none, e, T⟩ : PlankState)).1
      = ⟨some p0.2, p0.2 - p0.2, T⟩ := by
    rw [plank_step_in p0.1 p0.2 _ (h p0 (List.mem_cons_self _ _))]
    simp
  have htail := run_plank_in_aux ins (fun r hr => h r (List.mem_cons_of_mem _ hr)) p0.2 T p0
  simp only [run_plank_state, List.foldl, hstep]
  simpa [run_plank_state] using htail

lemma run_plank_out_noop (l : List (Frame × ℚ)) (hl : ∀ p ∈ l, ¬ InPlank p.1) (T : ℚ) :
    run_plank_state l ⟨none, 0, T⟩ = ⟨none, 0, T⟩ := by
  induction l with
  | nil => rfl
  | cons p ps ih =>
    have hstep : (process_plank p.1 p.2 (⟨none, 0, T⟩ : PlankState)).1 = ⟨none, 0, T⟩ :=
      plank_step_out_none p.1 p.2 _ (hl p (List.mem_cons_self _ _)) rfl
    simp only [run_plank_state, List.foldl, hstep]
    exact ih (fun r hr => hl r (List.mem_cons_of_mem _ hr))

lemma run_plank_out_block (o0 : Frame × ℚ) (outs : List (Frame × ℚ))
    (h : ∀ p ∈ o0 :: outs, ¬ InPlank p.1) (t0 e T : ℚ) :
    run_plank_state (o0 :: outs) ⟨some t0, e, T⟩ = ⟨none, 0, T + e⟩ := by
  have hstep : (process_plank o0.1 o0.2 (⟨some t0, e, T⟩ : PlankState)).1 = ⟨none, 0, T + e⟩ :=
    plank_step_out_some o0.1 o0.2 _ t0 (h o0 (List.mem_cons_self _ _)) rfl
  simp only [run_plank_state, List.foldl, hstep]
  exact run_plank_out_noop outs (fun r hr => h r (List.mem_cons_of_mem _ hr)) (T + e)

lemma run_plank_cycle (cy : PlankCycle) (h : cy.Drives) (T : ℚ) :
    run_plank_state cy.frames ⟨none, 0, T⟩ = ⟨none, 0, T + cy.duration⟩ := by
  obtain ⟨hin, hout⟩ := h
  rw [PlankCycle.frames, run_plank_state_append, run_plank_in_entry cy.i0 cy.ins hin 0 T,
    run_plank_out_block cy.o0 cy.outs hout _ _ T]
  rfl

lemma run_plank_cycles (L : List PlankCycle) (h : ∀ cy ∈ L, cy.Drives) (T : ℚ) :
    run_plank_state (flattenPlank L) ⟨none, 0, T⟩ = ⟨none, 0, T + durations L⟩ := by
  induction L generalizing T with
  | nil => simp [flattenPlank, run_plank_state, durations]
  | cons cy rest ih =>
    rw [flattenPlank, run_plank_state_append,
      run_plank_cycle cy (h cy (List.mem_cons_self _ _)) T,
      ih (fun d hd => h d (List.mem_cons_of_mem _ hd)) (T + cy.duration)]
    have : T + cy.duration + durations rest = T + durations (cy :: rest) := by
      simp [durations]; ring
    rw [this]

/-- Claim C7: with per-frame readings of a shared clock, the accumulated
plank total after the final in-position interval has been exited equals the
sum over intervals of (last in-interval reading minus entry reading),
independent of sampling; and on any frame whose body angle is outside
(160, 190) the reported current hold is 0. -/
theorem plank_accumulates_interval_durations :
    (∀ L : List PlankCycle, (∀ cy ∈ L, cy.Drives) →
      run_plank_state (flattenPlank L) plankZero = ⟨none, 0, durations L⟩) ∧
    (∀ (f : Frame) (t : ℚ) (s : PlankState), ¬ InPlank f →
      ∃ tt ba ip, (process_plank f t s).2 = .plank 0 tt ba ip) := by
  constructor
  · intro L hL
    have h := run_plank_cycles L hL 0
    rw [show (plankZero : PlankState) = ⟨none, 0, 0⟩ from rfl, h, zero_add]
  · intro f t s hf
    have h2 : (process_plank f t s).2
        = .plank (pyIntQ 0) (pyIntQ (process_plank f t s).1.total)
            (pyIntR (body_angle_plank f)) (InPlank f) := by
      simp [process_plank, hf]
    exact ⟨_, _, _, by rw [h2, show pyIntQ 0 = 0 by simp [pyIntQ]]⟩

lemma mkC_one_zero : (⟨1, 0⟩ : ℂ) = 1 := by
  apply Complex.ext <;> simp

lemma mkC_neg_one_zero : (⟨-1, 0⟩ : ℂ) = -1 := by
  apply Complex.ext <;> simp

lemma mkC_zero_one : (⟨0, 1⟩ : ℂ) = Complex.I := by
  apply Complex.ext <;> simp

lemma arctan2_zero_one : arctan2 0 1 = 0 := by
  rw [arctan2, mkC_one_zero, Complex.arg_one]

lemma arctan2_zero_neg_one : arctan2 0 (-1) = Real.pi := by
  rw [arctan2, mkC_neg_one_zero, Complex.arg_neg_one]

lemma arctan2_one_zero : arctan2 1 0 = Real.pi / 2 := by
  rw [arctan2, mkC_zero_one, Complex.arg_I]

lemma calculate_angle_of_radians (a b c : ℝ × ℝ) (r : ℝ)
    (h : arctan2 (c.2 - b.2) (c.1 - b.1) - arctan2 (a.2 - b.2) (a.1 - b.1) = r) :
    calculate_angle a b c =
      if |r * 180 / Real.pi| > 180 then 360 - |r * 180 / Real.pi|
      else |r * 180 / Real.pi| := by
  simp only [calculate_angle, h]

lemma calculate_angle_straight : calculate_angle (0, 0) (1, 0) (2, 0) = 180 := by
  rw [calculate_angle_of_radians (0, 0) (1, 0) (2, 0) (-Real.pi)
    (by norm_num [arctan2_zero_one, arctan2_zero_neg_one])]
  have hp : (-Real.pi) * 180 / Real.pi = -180 := by
    field_simp
    ring
  rw [hp]
  norm_num

lemma calculate_angle_bent : calculate_angle (0, 0) (1, 0) (1, 1) = 90 := by
  have hr : arctan2 (((1:ℝ), (1:ℝ)).2 - ((1:ℝ), (0:ℝ)).2) (((1:ℝ), (1:ℝ)).1 - ((1:ℝ), (0:ℝ)).1)
      - arctan2 (((0:ℝ), (0:ℝ)).2 - ((1:ℝ), (0:ℝ)).2) (((0:ℝ), (0:ℝ)).1 - ((1:ℝ), (0:ℝ)).1)
      = -(Real.pi / 2) := by
    norm_num [arctan2_one_zero, arctan2_zero_neg_one]
    ring
  rw [calculate_angle_of_radians (0, 0) (1, 0) (1, 1) (-(Real.pi / 2)) hr]
  have hp : -(Real.pi / 2) * 180 / Real.pi = -90 := by
    field_simp
    ring
  rw [hp]
  norm_num

lemma body_angle_fPlankIn : body_angle_plank fPlankIn = 180 := by
  have h11 : fPlankIn.pt 11 = ((0 : ℝ), (0 : ℝ)) := by norm_num [Frame.pt, fPlankIn]
  have h23 : fPlankIn.pt 23 = ((1 : ℝ), (0 : ℝ)) := by norm_num [Frame.pt, fPlankIn]
  have h27 : fPlankIn.pt 27 = ((2 : ℝ), (0 : ℝ)) := by norm_num [Frame.pt, fPlankIn]
  rw [body_angle_plank, h11, h23, h27, calculate_angle_straight]

lemma body_angle_fPlankOut : body_angle_plank fPlankOut = 90 := by
  have h11 : fPlankOut.pt 11 = ((0 : ℝ), (0 : ℝ)) := by norm_num [Frame.pt, fPlankOut]
  have h23 : fPlankOut.pt 23 = ((1 : ℝ), (0 : ℝ)) := by norm_num [Frame.pt, fPlankOut]
  have h27 : fPlankOut.pt 27 = ((1 : ℝ), (1 : ℝ)) := by norm_num [Frame.pt, fPlankOut]
  rw [body_angle_plank, h11, h23, h27, calculate_angle_bent]

/-- Claim C7 witness: one interval held from clock 0 to clock 5 and exited
at clock 7 accumulates total 5. -/
theorem plank_accumulates_interval_durations_witness :
    (∀ cy ∈ [plankCycleExample], cy.Drives) ∧
    run_plank_state (flattenPlank [plankCycleExample]) plankZero = ⟨none, 0, 5⟩ := by
  have hin : InPlank fPlankIn := by
    rw [InPlank, body_angle_fPlankIn]; norm_num
  have hout : ¬ InPlank fPlankOut := by
    rw [InPlank, body_angle_fPlankOut]; norm_num
  have hd : ∀ cy ∈ [plankCycleExample], cy.Drives := by
    simp [plankCycleExample, PlankCycle.Drives, List.forall_mem_cons, hin, hout]
  refine ⟨hd, ?_⟩
  have h := (plank_accumulates_interval_durations.1) [plankCycleExample] hd
  rw [h]
  norm_num [durations, plankCycleExample, PlankCycle.duration, lastD]

lemma radians_abs_lt (y2 x2 y1 x1 : ℝ) :
    |arctan2 y2 x2 - arctan2 y1 x1| < 2 * Real.pi := by
  have h2 := Complex.arg_mem_Ioc (⟨x2, y2⟩ : ℂ)
  have h1 := Complex.arg_mem_Ioc (⟨x1, y1⟩ : ℂ)
  rw [Set.mem_Ioc] at h2 h1
  rw [arctan2, arctan2, abs_lt]
  constructor <;> linarith [h2.1, h2.2, h1.1, h1.2]

lemma deg_abs (r : ℝ) : |r * 180 / Real.pi| = |r| * 180 / Real.pi := by
  have hpi := Real.pi_pos
  rw [abs_div, abs_mul, abs_of_pos hpi]
  norm_num

lemma fold_eq_arccos (r : ℝ) (h : |r| < 2 * Real.pi) :
    (if |r * 180 / Real.pi| > 180 then 360 - |r * 180 / Real.pi| else |r * 180 / Real.pi|)
      = Real.arccos (Real.cos r) * 180 / Real.pi := by
  have hpi := Real.pi_pos
  rcases le_or_lt |r| Real.pi with hle | hgt
  · have hcond : ¬ (|r * 180 / Real.pi| > 180) := by
      rw [deg_abs, not_lt, div_le_iff₀ hpi]
      nlinarith
    rw [if_neg hcond, deg_abs]
    rw [show Real.arccos (Real.cos r) = |r| by
      rw [← Real.cos_abs, Real.arccos_cos (abs_nonneg r) hle]]
  · have hcond : |r * 180 / Real.pi| > 180 := by
      rw [deg_abs, gt_iff_lt, lt_div_iff₀ hpi]
      nlinarith
    rw [if_pos hcond, deg_abs]
    have hc : Real.cos r = Real.cos (2 * Real.pi - |r|) := by
      rw [Real.cos_two_pi_sub, Real.cos_abs]
    rw [hc, Real.arccos_cos (by linarith) (by linarith)]
    field_simp
    ring

lemma calculate_angle_arccos (a b c : ℝ × ℝ) :
    calculate_angle a b c
      = Real.arccos (Real.cos (arctan2 (c.2 - b.2) (c.1 - b.1)
          - arctan2 (a.2 - b.2) (a.1 - b.1))) * 180 / Real.pi := by
  rw [calculate_angle_of_radians a b c _ rfl,
    fold_eq_arccos _ (radians_abs_lt (c.2 - b.2) (c.1 - b.1) (a.2 - b.2) (a.1 - b.1))]

/-- Claim C9: the angle utility is total on the real model and always lands
in the closed interval [0, 180], degenerate rays included. -/
theorem calculate_angle_in_range (a b c : ℝ × ℝ) :
    0 ≤ calculate_angle a b c ∧ calculate_angle a b c ≤ 180 := by
  rw [calculate_angle_arccos]
  have hpi := Real.pi_pos
  have h0 : 0 ≤ Real.arccos (Real.cos (arctan2 (c.2 - b.2) (c.1 - b.1)
      - arctan2 (a.2 - b.2) (a.1 - b.1))) := Real.arccos_nonneg _
  have h1 : Real.arccos (Real.cos (arctan2 (c.2 - b.2) (c.1 - b.1)
      - arctan2 (a.2 - b.2) (a.1 - b.1))) ≤ Real.pi := Real.arccos_le_pi _
  constructor
  · positivity
  · rw [div_le_iff₀ hpi]
    nlinarith

lemma mk_ne_zero_of_ne {p q : ℝ × ℝ} (h : p ≠ q) :
    (⟨p.1 - q.1, p.2 - q.2⟩ : ℂ) ≠ 0 := by
  intro hz
  apply h
  have h1 : p.1 - q.1 = 0 := congrArg Complex.re hz
  have h2 : p.2 - q.2 = 0 := congrArg Complex.im hz
  exact Prod.ext (by linarith) (by linarith)

lemma mk_neg_ne_zero {x y : ℝ} (h : (⟨x, y⟩ : ℂ) ≠ 0) : (⟨-x, y⟩ : ℂ) ≠ 0 := by
  intro hz
  apply h
  have h1 : -x = 0 := congrArg Complex.re hz
  have h2 : y = 0 := congrArg Complex.im hz
  apply Complex.ext
  · simpa using by linarith [h1]
  · simpa using h2

lemma abs_mk_neg (x y : ℝ) : Complex.abs ⟨-x, y⟩ = Complex.abs ⟨x, y⟩ := by
  rw [Complex.abs_apply, Complex.abs_apply, Complex.normSq_mk, Complex.normSq_mk]
  ring_nf

lemma cos_arctan2_diff (y2 x2 y1 x1 : ℝ)
    (h2 : (⟨x2, y2⟩ : ℂ) ≠ 0) (h1 : (⟨x1, y1⟩ : ℂ) ≠ 0) :
    Real.cos (arctan2 y2 x2 - arctan2 y1 x1)
      = (x2 * x1 + y2 * y1) / (Complex.abs ⟨x2, y2⟩ * Complex.abs ⟨x1, y1⟩) := by
  rw [Real.cos_sub, arctan2, arctan2, Complex.cos_arg h2, Complex.cos_arg h1,
    Complex.sin_arg, Complex.sin_arg]
  have hA2 : Complex.abs ⟨x2, y2⟩ ≠ 0 := Complex.abs.ne_zero h2
  have hA1 : Complex.abs ⟨x1, y1⟩ ≠ 0 := Complex.abs.ne_zero h1
  show x2 / Complex.abs ⟨x2, y2⟩ * (x1 / Complex.abs ⟨x1, y1⟩)
      + y2 / Complex.abs ⟨x2, y2⟩ * (y1 / Complex.abs ⟨x1, y1⟩) = _
  field_simp

/-- Claim C10: for points with both rays nondegenerate, the computed angle is
unchanged by a left-right reflection of all three points and by a uniform
positive scaling of all coordinates. -/
theorem calculate_angle_invariant (a b c : ℝ × ℝ) (k : ℝ)
    (hab : a ≠ b) (hcb : c ≠ b) (hk : 0 < k) :
    calculate_angle (-a.1, a.2) (-b.1, b.2) (-c.1, c.2) = calculate_angle a b c ∧
    calculate_angle (k * a.1, k * a.2) (k * b.1, k * b.2) (k * c.1, k * c.2)
      = calculate_angle a b c := by
  have hz2 : (⟨c.1 - b.1, c.2 - b.2⟩ : ℂ) ≠ 0 := mk_ne_zero_of_ne hcb
  have hz1 : (⟨a.1 - b.1, a.2 - b.2⟩ : ℂ) ≠ 0 := mk_ne_zero_of_ne hab
  constructor
  · rw [calculate_angle_arccos, calculate_angle_arccos]
    have e2y : ((-c.1, c.2) : ℝ × ℝ).2 - ((-b.1, b.2) : ℝ × ℝ).2 = c.2 - b.2 := rfl
    have e2x : ((-c.1, c.2) : ℝ × ℝ).1 - ((-b.1, b.2) : ℝ × ℝ).1 = -(c.1 - b.1) := by
      dsimp only
      ring
    have e1y : ((-a.1, a.2) : ℝ × ℝ).2 - ((-b.1, b.2) : ℝ × ℝ).2 = a.2 - b.2 := rfl
    have e1x : ((-a.1, a.2) : ℝ × ℝ).1 - ((-b.1, b.2) : ℝ × ℝ).1 = -(a.1 - b.1) := by
      dsimp only
      ring
    rw [e2y, e2x, e1y, e1x]
    rw [cos_arctan2_diff _ _ _ _ (mk_neg_ne_zero hz2) (mk_neg_ne_zero hz1),
      cos_arctan2_diff _ _ _ _ hz2 hz1, abs_mk_neg, abs_mk_neg]
    congr 2
    ring
  · have hs : ∀ y x : ℝ, arctan2 (k * y) (k * x) = arctan2 y x := by
      intro y x
      rw [arctan2, arctan2]
      have hmk : (⟨k * x, k * y⟩ : ℂ) = (k : ℂ) * ⟨x, y⟩ := by
        apply Complex.ext <;> simp [Complex.mul_re, Complex.mul_im]
      rw [hmk, Complex.arg_real_mul _ hk]
    rw [calculate_angle_arccos, calculate_angle_arccos]
    have e2 : arctan2 (((k * c.1, k * c.2) : ℝ × ℝ).2 - ((k * b.1, k * b.2) : ℝ × ℝ).2)
        (((k * c.1, k * c.2) : ℝ × ℝ).1 - ((k * b.1, k * b.2) : ℝ × ℝ).1)
        = arctan2 (c.2 - b.2) (c.1 - b.1) := by
      dsimp only
      rw [show k * c.2 - k * b.2 = k * (c.2 - b.2) by ring,
        show k * c.1 - k * b.1 = k * (c.1 - b.1) by ring, hs]
    have e1 : arctan2 (((k * a.1, k * a.2) : ℝ × ℝ).2 - ((k * b.1, k * b.2) : ℝ × ℝ).2)
        (((k * a.1, k * a.2) : ℝ × ℝ).1 - ((k * b.1, k * b.2) : ℝ × ℝ).1)
        = arctan2 (a.2 - b.2) (a.1 - b.1) := by
      dsimp only
      rw [show k * a.2 - k * b.2 = k * (a.2 - b.2) by ring,
        show k * a.1 - k * b.1 = k * (a.1 - b.1) by ring, hs]
    rw [e2, e1]

/-- Claim C10 witness: the invariances at the right-angle triple
(0,1), (0,0), (1,0) with scale factor 2. -/
theorem calculate_angle_invariant_witness :
    ((0 : ℝ), (1 : ℝ)) ≠ ((0 : ℝ), (0 : ℝ)) ∧ ((1 : ℝ), (0 : ℝ)) ≠ ((0 : ℝ), (0 : ℝ)) ∧
    (0 : ℝ) < 2 ∧
    (calculate_angle (-(0:ℝ), (1:ℝ)) (-(0:ℝ), (0:ℝ)) (-(1:ℝ), (0:ℝ))
        = calculate_angle ((0:ℝ), (1:ℝ)) ((0:ℝ), (0:ℝ)) ((1:ℝ), (0:ℝ)) ∧
      calculate_angle ((2:ℝ) * 0, (2:ℝ) * 1) ((2:ℝ) * 0, (2:ℝ) * 0) ((2:ℝ) * 1, (2:ℝ) * 0)
        = calculate_angle ((0:ℝ), (1:ℝ)) ((0:ℝ), (0:ℝ)) ((1:ℝ), (0:ℝ))) :=
  ⟨by norm_num [Prod.ext_iff], by norm_num [Prod.ext_iff], by norm_num,
   calculate_angle_invariant ((0:ℝ), (1:ℝ)) ((0:ℝ), (0:ℝ)) ((1:ℝ), (0:ℝ)) 2
     (by norm_num [Prod.ext_iff]) (by norm_num [Prod.ext_iff]) (by norm_num)⟩
